import Mathlib

/-!
Verification development for the next-departure live refresh engine.

The definitions below are a shallow embedding of the TypeScript sources:
`src/lib/utils/time.ts` (relative-time formatting and delay computation),
`src/components/ClientEnhancements.tsx` (fetch fan-out, merge policy and the
visibility-aware refresh scheduler), the `CombinedBoard` component
(direction grouping and the fade-out display list) and
`src/lib/utils/storage.ts` (stop configuration operations).

ISO 8601 instants are modelled as integers counting milliseconds since the
epoch: for timestamps rendered in one common UTC format, lexicographic string
comparison and chronological comparison agree, and all JavaScript arithmetic
on them goes through `Date.getTime()` millisecond values.  `Math.round` on
the (exactly representable) quotients that occur here is `⌊x + 1/2⌋`.
-/

namespace NextDeparture

/-- Transport mode enumeration (`src/lib/providers/types.ts`, `TransportMode`). -/
inductive TransportMode where
  | train
  | tram
  | bus
  | ferry
  | metro
  | light_rail
  | coach
deriving DecidableEq, Repr

/-- Direction of travel (`src/lib/providers/types.ts`, `Direction`). -/
structure Direction where
  id : String
  name : String
  shortName : Option String := none
deriving DecidableEq, Repr

/-- One departure (`src/lib/providers/types.ts`, `Departure`).  `estimatedTime`
is optional exactly as in the source; purely informational fields that no
claim touches (`routeDescription`, `status`) are omitted. -/
structure Departure where
  id : String
  routeId : String := ""
  routeName : String := ""
  destination : String := ""
  direction : Direction
  scheduledTime : Int
  estimatedTime : Option Int := none
  platform : Option String := none
  mode : TransportMode
  isRealTime : Bool := false
deriving DecidableEq, Repr

/-- A transit stop (`src/lib/providers/types.ts`, `Stop`); only the fields the
claims touch (`id`, `name`) are modelled. -/
structure Stop where
  id : String
  name : String
deriving DecidableEq, Repr

/-- JavaScript truthiness of a string: the empty string is falsy, so
`a || b` on strings keeps `a` exactly when it is nonempty. -/
def strOr (a b : String) : String := if a = "" then b else a

/-- JavaScript truthiness of an optional string, used for `!section.error`:
`undefined` and the empty string are falsy. -/
def strTruthy : Option String → Bool
  | none => false
  | some s => s ≠ ""

/-- Value of `Math.round(diffMs / 1000 / 60)` for an integer count of
milliseconds (`src/lib/utils/time.ts` lines 28 and 101).  JavaScript rounds
halves toward positive infinity, `Math.round x = ⌊x + 1/2⌋`, so on an integer
`d` the result is `⌊(d + 30000) / 60000⌋`, written with floor division. -/
def roundMinutes (diffMs : Int) : Int := Int.fdiv (diffMs + 30000) 60000

/-- Embeds `formatRelativeTime` (`src/lib/utils/time.ts` lines 22-54): the
relative display string for a target instant against the current time.  In
the final branches `diffMinutes` is at least 60, so JavaScript `Math.floor`
division and `%` agree with `Int.fdiv` and `Int.emod`. -/
def formatRelativeTime (targetTime nowTime : Int) : String :=
  let diffMinutes := roundMinutes (targetTime - nowTime)
  if diffMinutes < 0 then "gone"
  else if diffMinutes = 0 then "now"
  else if diffMinutes < 60 then toString diffMinutes ++ " min"
  else
    let hours := Int.fdiv diffMinutes 60
    let minutes := Int.emod diffMinutes 60
    if minutes = 0 then toString hours ++ " hr"
    else toString hours ++ " hr " ++ toString minutes ++ " min"

/-- Time-state of a departure.  The components decide it from
`formatRelativeTime`'s result: `relative === 'gone'` marks a past departure,
`relative === 'now'` one departing in the current rounded minute, and every
other value an upcoming one. -/
inductive TimeState where
  | upcoming
  | departingNow
  | gone
deriving DecidableEq, Repr

/-- Classification of an instant against the current time: the first two
branches of `formatRelativeTime`, which are exactly the cases that
`ModeSectionComponent` and `CompactDepartureRow` test with
`timeInfo.relative === 'gone'` and `timeInfo.relative === 'now'`. -/
def classifyInstant (targetTime nowTime : Int) : TimeState :=
  let diffMinutes := roundMinutes (targetTime - nowTime)
  if diffMinutes < 0 then .gone
  else if diffMinutes = 0 then .departingNow
  else .upcoming

/-- Effective display instant `estimatedTime || scheduledTime`
(`formatDepartureTime`, `src/lib/utils/time.ts` line 94). -/
def effectiveTime (d : Departure) : Int := d.estimatedTime.getD d.scheduledTime

/-- Time-state classification of a departure at the current time. -/
def classify (d : Departure) (nowTime : Int) : TimeState :=
  classifyInstant (effectiveTime d) nowTime

/-- Result of `formatDepartureTime` (`src/lib/utils/time.ts` lines 84-110).
The locale-formatted `absolute` clock string is display-only and omitted; the
remaining fields are embedded exactly. -/
structure TimeInfo where
  relative : String
  isRealTime : Bool
  delayMinutes : Int
deriving DecidableEq, Repr

/-- Embeds `formatDepartureTime`: the relative string is computed for the
effective time, `isRealTime` records whether an estimate is present, and
`delayMinutes = Math.round((estimated - scheduled) / 1000 / 60)` when an
estimate is present, otherwise 0. -/
def formatDepartureTime (scheduledTime : Int) (estimatedTime : Option Int)
    (nowTime : Int) : TimeInfo :=
  let effective := estimatedTime.getD scheduledTime
  let delayMinutes :=
    match estimatedTime with
    | some estimated => roundMinutes (estimated - scheduledTime)
    | none => 0
  { relative := formatRelativeTime effective nowTime
    isRealTime := estimatedTime.isSome
    delayMinutes := delayMinutes }

/-- Real-time delay indicator rendered by `CompactDepartureRow` (CombinedBoard,
lines 96-105): present only when `isRealTime`; a delay below -2 shows the
signed minutes (early arrival), above 2 shows `+minutes` (late), and anything
in between shows the text `live`. -/
def delayIndicator (timeInfo : TimeInfo) : Option String :=
  if timeInfo.isRealTime then
    some (if timeInfo.delayMinutes < -2 then toString timeInfo.delayMinutes
      else if timeInfo.delayMinutes > 2 then "+" ++ toString timeInfo.delayMinutes
      else "live")
  else none

/-- Per-tuple section state (`ClientEnhancements.tsx`, interface
`ModeSection`).  `error` and `groupByDirection` are optional fields exactly as
in the source. -/
structure ModeSection where
  mode : TransportMode
  stopId : String
  stopName : String
  departures : List Departure
  isLoading : Bool
  error : Option String := none
  groupByDirection : Option Bool := none
deriving DecidableEq, Repr

/-- Merge of one freshly fetched section against the previously committed
section list (`ClientEnhancements.tsx` lines 229-251, the body of the
`setSections` callback): a fresh section with departures and no error wins
outright; otherwise the first committed section for the same
`(stopId, mode)` tuple is retained when it has departures and no error, with
only its stop name refreshed (`newSection.stopName || prevSection.stopName`);
otherwise the fresh section is used as-is. -/
def mergeSection (prevSections : List ModeSection) (newSection : ModeSection) :
    ModeSection :=
  if newSection.departures.length > 0 ∧ strTruthy newSection.error = false then
    newSection
  else
    match prevSections.find? (fun ps =>
        decide (ps.stopId = newSection.stopId ∧ ps.mode = newSection.mode)) with
    | some prevSection =>
      if prevSection.departures.length > 0 ∧ strTruthy prevSection.error = false then
        { prevSection with
            stopName := strOr newSection.stopName prevSection.stopName }
      else newSection
    | none => newSection

/-- One full merge cycle (`ClientEnhancements.tsx` line 229):
`newSections.map` of the per-section merge against the committed state. -/
def mergeSections (prevSections newSections : List ModeSection) : List ModeSection :=
  newSections.map (mergeSection prevSections)

/-- Enabled stop with its direction filter (`src/lib/utils/storage.ts`,
`EnabledStopInfo`); the cached `directionNames` display map is omitted. -/
structure EnabledStopInfo where
  mode : TransportMode
  stop : Stop
  directionIds : Option (List String) := none
deriving DecidableEq, Repr

/-- Buffer multiplier for mobile backgrounding (`ClientEnhancements.tsx`
line 163). -/
def bufferMultiplier : Nat := 2

/-- Presence of a direction filter:
`directionIds && directionIds.length > 0` (`ClientEnhancements.tsx` line 157). -/
def hasDirectionFilter (directionIds : Option (List String)) : Bool :=
  match directionIds with
  | some ids => ids.length > 0
  | none => false

/-- Requested page size for one departures request (`ClientEnhancements.tsx`
lines 164-166): grouped (unfiltered) tuples multiply the buffered display
count by 4, filtered tuples by 3. -/
def fetchLimit (departuresPerMode : Nat) (groupByDirection : Bool) : Nat :=
  if groupByDirection then (departuresPerMode * bufferMultiplier + 2) * 4
  else (departuresPerMode * bufferMultiplier + 2) * 3

/-- Outcome of one per-tuple departures request as observed by the fetch
callback: an ok JSON response carrying an optional resolved stop name and a
departure list, a non-ok HTTP response, or a thrown network error. -/
inductive FetchResult where
  | ok (stopName : Option String) (departures : List Departure)
  | httpError
  | networkError
deriving DecidableEq, Repr

/-- Per-tuple fetch normalization (`ClientEnhancements.tsx` lines 153-219, the
body of `fetchPromises`): an ok response yields a section with the
direction-filtered departures, the resolved stop name falling back to the
configured one, `isLoading: false` and the `groupByDirection` flag; a failing
response yields an error section with no departures. -/
def perTupleSection (info : EnabledStopInfo) (result : FetchResult) : ModeSection :=
  let hasFilter := hasDirectionFilter info.directionIds
  let groupByDirection := !hasFilter
  match result with
  | .ok stopName departures =>
    let filtered :=
      if hasFilter then
        departures.filter (fun dep =>
          (info.directionIds.getD []).contains dep.direction.id)
      else departures
    { mode := info.mode
      stopId := info.stop.id
      stopName := strOr (stopName.getD "") info.stop.name
      departures := filtered
      isLoading := false
      error := none
      groupByDirection := some groupByDirection }
  | .httpError =>
    { mode := info.mode
      stopId := info.stop.id
      stopName := info.stop.name
      departures := []
      isLoading := false
      error := some "Failed to fetch"
      groupByDirection := none }
  | .networkError =>
    { mode := info.mode
      stopId := info.stop.id
      stopName := info.stop.name
      departures := []
      isLoading := false
      error := some "Network error"
      groupByDirection := none }

/-- Whether a per-tuple outcome is a failure (non-ok HTTP response or thrown
network error). -/
def FetchResult.isFailure : FetchResult → Bool
  | .ok _ _ => false
  | .httpError => true
  | .networkError => true

/-- One full fan-out cycle: every (tuple, outcome) pair is normalized to its
own section (`Promise.all(fetchPromises)`, `ClientEnhancements.tsx`
line 223); no pair's outcome can remove or reorder another pair's slot. -/
def fetchBatch (pairs : List (EnabledStopInfo × FetchResult)) : List ModeSection :=
  pairs.map (fun pair => perTupleSection pair.1 pair.2)

/-- Scheduler state of the visibility-aware refresh effect
(`ClientEnhancements.tsx` lines 350-438): the `isVisible` local and whether a
refresh timeout is currently pending in `refreshTimeoutRef`. -/
structure SchedulerState where
  isVisible : Bool
  timerArmed : Bool
deriving DecidableEq, Repr

/-- External events driving the effect: the pending timeout firing, or a
`visibilitychange` (or bfcache `pageshow`) callback.  `dataStale` abstracts
the staleness comparison the handler makes when visibility is regained. -/
inductive SchedulerEvent where
  | timerFire
  | visibilityChange (visible : Bool) (dataStale : Bool)
deriving DecidableEq, Repr

/-- One event step, returning the new state and the number of departure fetch
cycles triggered.  `timerFire` (the `setTimeout` callback, lines 362-368):
fetches only when `isVisible` and then unconditionally re-arms via
`scheduleRefresh`.  `visibilityChange true` (lines 375-406): fetches in the
background when the data is stale and restarts the timer.
`visibilityChange false` (lines 407-413): clears the pending timeout and
fetches nothing. -/
def schedulerStep (s : SchedulerState) (e : SchedulerEvent) : SchedulerState × Nat :=
  match e with
  | .timerFire =>
    if s.timerArmed then
      ({ s with timerArmed := true }, if s.isVisible then 1 else 0)
    else (s, 0)
  | .visibilityChange visible dataStale =>
    if visible then
      ({ isVisible := true, timerArmed := true }, if dataStale then 1 else 0)
    else
      ({ isVisible := false, timerArmed := false }, 0)

/-- Run of a sequence of events, accumulating the fetch-cycle count. -/
def schedulerRun (s : SchedulerState) : List SchedulerEvent → SchedulerState × Nat
  | [] => (s, 0)
  | e :: es =>
    let stepped := schedulerStep s e
    let rest := schedulerRun stepped.1 es
    (rest.1, stepped.2 + rest.2)

/-- Events that can occur while the page stays hidden: a timer callback that
was already queued firing, and further not-visible notifications. -/
def SchedulerEvent.keepsHidden : SchedulerEvent → Bool
  | .timerFire => true
  | .visibilityChange visible _ => !visible

/-- Direction bucket (CombinedBoard, interface `DirectionGroup`). -/
structure DirectionGroup where
  directionId : String
  directionName : String
  departures : List Departure
deriving DecidableEq, Repr

/-- Insertion of one departure into the bucket list
(`groupDeparturesByDirection`, CombinedBoard lines 126-142): buckets live in
first-seen order (JS `Map` insertion order); a missing bucket is created
empty, and the departure is appended only while its bucket is below
`maxPerDirection`.  The direction id and name fall back to `'unknown'` /
`'Unknown'` exactly as `dep.direction?.id || 'unknown'` does. -/
def insertIntoGroups (maxPerDirection : Nat) (groups : List DirectionGroup)
    (dep : Departure) : List DirectionGroup :=
  let dirId := strOr dep.direction.id "unknown"
  let dirName := strOr dep.direction.name "Unknown"
  if groups.any (fun g => g.directionId = dirId) then
    groups.map (fun g =>
      if g.directionId = dirId ∧ g.departures.length < maxPerDirection then
        { g with departures := g.departures ++ [dep] }
      else g)
  else
    groups ++ [{ directionId := dirId
                 directionName := dirName
                 departures := if 0 < maxPerDirection then [dep] else [] }]

/-- Sort key of a bucket (CombinedBoard lines 146-147):
`departures[0]?.estimatedTime || departures[0]?.scheduledTime || ''`, the
effective time of the bucket's first member, the empty string (here `none`)
for an empty bucket. -/
def groupKey (g : DirectionGroup) : Option Int := g.departures.head?.map effectiveTime

/-- Bucket comparison of the final sort (CombinedBoard lines 145-149):
`localeCompare` on the ISO timestamp keys, which for the common timestamp
format is chronological order; the empty string sorts before every
timestamp. -/
def groupLE (a b : DirectionGroup) : Bool :=
  match groupKey a, groupKey b with
  | none, _ => true
  | some _, none => false
  | some x, some y => x ≤ y

/-- Bucket ordering as a relation, for the final sort. -/
def GroupOrder (a b : DirectionGroup) : Prop := groupLE a b = true

instance : DecidableRel GroupOrder := fun a b =>
  inferInstanceAs (Decidable (groupLE a b = true))

/-- Embeds `groupDeparturesByDirection` (CombinedBoard lines 120-150): fold
the departures into buckets, then sort the buckets by first-member effective
time.  `Array.prototype.sort` with a comparator is a stable sort, and every
stable sort by the same total preorder produces the same list, so insertion
sort (which is stable) models it exactly. -/
def groupDeparturesByDirection (departures : List Departure)
    (maxPerDirection : Nat) : List DirectionGroup :=
  (departures.foldl (insertIntoGroups maxPerDirection) []).insertionSort GroupOrder

/-- Departures of a section not yet classified `gone` at the current time
(`ModeSectionComponent` lines 171-182; the loop preserves source order, so the
split is a pair of filters). -/
def sectionUpcoming (s : ModeSection) (nowTime : Int) : List Departure :=
  s.departures.filter (fun d => decide (classify d nowTime ≠ .gone))

/-- Departures of a section already classified `gone` at the current time. -/
def sectionGone (s : ModeSection) (nowTime : Int) : List Departure :=
  s.departures.filter (fun d => decide (classify d nowTime = .gone))

/-- Gone departures currently held in the fade-out id set
(`ModeSectionComponent` line 228). -/
def sectionFading (s : ModeSection) (nowTime : Int) (fadingOutIds : List String) :
    List Departure :=
  (sectionGone s nowTime).filter (fun d => fadingOutIds.contains d.id)

/-- Rendered departure list `upcoming ++ fading` (`ModeSectionComponent`
line 229). -/
def displayDepartures (s : ModeSection) (nowTime : Int) (fadingOutIds : List String) :
    List Departure :=
  sectionUpcoming s nowTime ++ sectionFading s nowTime fadingOutIds

/-- Direction groups rendered when `groupByDirection` is set
(`ModeSectionComponent` lines 232-236): the cap handed to the bucketing is
`departuresPerMode` plus the number of currently fading departures. -/
def sectionDirectionGroups (s : ModeSection) (nowTime : Int)
    (fadingOutIds : List String) (departuresPerMode : Nat) : List DirectionGroup :=
  groupDeparturesByDirection (displayDepartures s nowTime fadingOutIds)
    (departuresPerMode + (sectionFading s nowTime fadingOutIds).length)

/-- Earliest effective time among a bucket's members (0 for an empty bucket);
formalizes the phrase "the bucket's earliest member's effective time" from
the specification, for comparison with the source's first-member key. -/
def earliestMemberTime (g : DirectionGroup) : Int :=
  ((g.departures.map effectiveTime).min?).getD 0

/-- Specification-side ordering predicate: buckets ordered by their earliest
member's effective time ascending.  Written from the specification's words to
compare with the source's first-member ordering. -/
def bucketsOrderedByEarliest (groups : List DirectionGroup) : Prop :=
  List.Pairwise (fun a b => earliestMemberTime a ≤ earliestMemberTime b) groups

/-- Provider identifiers.  The providers index module is outside the
extracted sources; the two concrete providers named throughout
`storage.ts` (`getSupportedModes`) and the server page are `ptv` and
`tfnsw`. -/
inductive ProviderId where
  | ptv
  | tfnsw
deriving DecidableEq, Repr

/-- Stop configuration (`storage.ts`, `StopConfig`); the cached
`directionNames` display map is omitted. -/
structure StopConfig where
  stop : Stop
  enabled : Bool
  directionIds : Option (List String) := none
deriving DecidableEq, Repr

/-- Per-provider stop lists (`storage.ts`, `ProviderSettings`); every field
is optional exactly as in the source. -/
structure ProviderSettings where
  tramStops : Option (List StopConfig) := none
  trainStops : Option (List StopConfig) := none
  busStops : Option (List StopConfig) := none
  ferryStops : Option (List StopConfig) := none
  lightRailStops : Option (List StopConfig) := none
  coachStops : Option (List StopConfig) := none
deriving DecidableEq, Repr

/-- User settings (`storage.ts`, `UserSettings`); only the fields the claims
touch are modelled.  `providers` is the partial per-provider record, read
through total functions below exactly as the source reads it. -/
structure UserSettings where
  activeProvider : ProviderId
  providers : ProviderId → Option ProviderSettings
  refreshInterval : Nat := 60
  departuresPerMode : Nat := 3
  maxMinutes : Nat := 30
  nearbyMode : Bool := false

/-- Embeds `getActiveProviderSettings` (`storage.ts` lines 348-350). -/
def getActiveProviderSettings (settings : UserSettings) : ProviderSettings :=
  (settings.providers settings.activeProvider).getD {}

/-- Embeds `getStopsForMode` (`storage.ts` lines 355-376); the source switch
has no `metro` case, so `metro` takes the default branch and yields `[]`. -/
def getStopsForMode (settings : UserSettings) (mode : TransportMode) :
    List StopConfig :=
  let providerSettings := getActiveProviderSettings settings
  match mode with
  | .tram => providerSettings.tramStops.getD []
  | .train => providerSettings.trainStops.getD []
  | .bus => providerSettings.busStops.getD []
  | .ferry => providerSettings.ferryStops.getD []
  | .light_rail => providerSettings.lightRailStops.getD []
  | .coach => providerSettings.coachStops.getD []
  | .metro => []

/-- Embeds `setStopsForMode` (`storage.ts` lines 381-419); the `metro` case is
the source's default branch, which returns the settings unchanged. -/
def setStopsForMode (settings : UserSettings) (mode : TransportMode)
    (configs : List StopConfig) : UserSettings :=
  let providerSettings := getActiveProviderSettings settings
  let updated : Option ProviderSettings :=
    match mode with
    | .tram => some { providerSettings with tramStops := some configs }
    | .train => some { providerSettings with trainStops := some configs }
    | .bus => some { providerSettings with busStops := some configs }
    | .ferry => some { providerSettings with ferryStops := some configs }
    | .light_rail => some { providerSettings with lightRailStops := some configs }
    | .coach => some { providerSettings with coachStops := some configs }
    | .metro => none
  match updated with
  | none => settings
  | some updatedProviderSettings =>
    { settings with
        providers := fun pid =>
          if pid = settings.activeProvider then some updatedProviderSettings
          else settings.providers pid }

/-- Embeds `addStopForMode` (`storage.ts` lines 424-435): the stop config is
appended unless a config with the same `stop.id` already exists for that
mode. -/
def addStopForMode (settings : UserSettings) (mode : TransportMode)
    (config : StopConfig) : UserSettings :=
  let existing := getStopsForMode settings mode
  if existing.any (fun s => s.stop.id = config.stop.id) then settings
  else setStopsForMode settings mode (existing ++ [config])

/-- Concrete direction fixture used by witnesses and counterexamples. -/
def dirFixtureX : Direction := { id := "x", name := "X" }

/-- Second concrete direction fixture. -/
def dirFixtureY : Direction := { id := "y", name := "Y" }

/-- Concrete departure fixture: a tram departure with a given id, direction
and scheduled time, no estimate. -/
def depFixture (i : String) (dir : Direction) (t : Int) : Departure :=
  { id := i, direction := dir, scheduledTime := t, mode := .tram }

/-- Fresh section fixture with one departure and no error. -/
def freshSectionSample : ModeSection :=
  { mode := .tram, stopId := "s1", stopName := "Stop 1"
    departures := [depFixture "d1" dirFixtureX 600000]
    isLoading := false, error := none, groupByDirection := some true }

/-- Committed section fixture with one departure and no error. -/
def prevSectionSample : ModeSection :=
  { mode := .tram, stopId := "s1", stopName := "Old Stop"
    departures := [depFixture "d0" dirFixtureX 0]
    isLoading := false }

/-- Fetch tuple fixture for the same stop as `prevSectionSample`. -/
def tupleSample : EnabledStopInfo :=
  { mode := .tram, stop := { id := "s1", name := "Cfg Stop" } }

/-- Fetch tuple fixture for a second, unrelated stop. -/
def successTuple : EnabledStopInfo :=
  { mode := .tram, stop := { id := "s2", name := "Cfg Stop 2" } }

/-- Departure fixture whose effective time lies 10 seconds in the past at
time 10000. -/
def pastDeparture : Departure := depFixture "cx3" dirFixtureX 0

/-- Section fixture for the grouping counterexample: two upcoming departures
and one gone departure, all in direction `x`, with `groupByDirection` set. -/
def groupingCapSection : ModeSection :=
  { mode := .tram, stopId := "s", stopName := "S"
    departures := [depFixture "u1" dirFixtureX 60000000,
      depFixture "u2" dirFixtureX 60060000,
      depFixture "f1" dirFixtureX (-3600000)]
    isLoading := false, groupByDirection := some true }

/-- Departure list fixture for the bucket-ordering counterexample: direction
`x` is seen first with a late departure, direction `y` second, and direction
`x`'s earliest departure arrives last in the list. -/
def orderCounterDeps : List Departure :=
  [depFixture "x1" dirFixtureX 6000000,
   depFixture "y1" dirFixtureY 3000000,
   depFixture "x0" dirFixtureX 600000]

/-- Stop config fixture. -/
def stopConfigSample : StopConfig :=
  { stop := { id := "st1", name := "Stop One" }, enabled := true }

/-- Settings fixture whose active provider already has `stopConfigSample`
configured for trams. -/
def settingsSample : UserSettings :=
  { activeProvider := .ptv
    providers := fun _ => some { tramStops := some [stopConfigSample] } }

end NextDeparture

namespace NextDeparture

/-- Helper: a fresh section with at least one departure and no error wins the
merge outright (first branch of the `setSections` callback). -/
theorem mergeSection_of_usable_fresh (prevSections : List ModeSection)
    (newSection : ModeSection) (hdep : newSection.departures ≠ [])
    (herr : newSection.error = none) :
    mergeSection prevSections newSection = newSection := by
  unfold mergeSection
  rw [if_pos]
  exact ⟨by simpa using List.length_pos.mpr hdep, by simp [herr, strTruthy]⟩

/-- Helper: every section produced by the per-tuple fetch normalization
carries `isLoading = false`; together with `mergeSection_isLoading` this is
why every committed section has a cleared loading flag. -/
theorem perTupleSection_isLoading (info : EnabledStopInfo) (result : FetchResult) :
    (perTupleSection info result).isLoading = false := by
  cases result <;> rfl

/-- Helper: merging preserves the cleared loading flag, so by induction every
section ever committed by a merge cycle has `isLoading = false` (the initial
server-rendered sections are built with `isLoading: false` as well). -/
theorem mergeSection_isLoading (prevSections : List ModeSection)
    (newSection : ModeSection)
    (hprev : ∀ p ∈ prevSections, p.isLoading = false)
    (hnew : newSection.isLoading = false) :
    (mergeSection prevSections newSection).isLoading = false := by
  unfold mergeSection
  split
  · exact hnew
  · split
    · rename_i prevSection hfind
      split
      · exact hprev prevSection (List.mem_of_find?_eq_some hfind)
      · exact hnew
    · exact hnew

/-- C1 Merge stale-preservation: when the previously committed section for a
tuple has at least one departure and no error (committed sections always have
`isLoading = false`, see `perTupleSection_isLoading` and
`mergeSection_isLoading`), and the fresh per-tuple outcome is a failure or a
success with zero departures, the merged section equals the previous section
with `isLoading` false: its departures are retained unchanged and its stop
name is refreshed only when the fresh result carried one. -/
theorem merge_stale_preservation (prevSections : List ModeSection)
    (info : EnabledStopInfo) (result : FetchResult) (prevSection : ModeSection)
    (hfind : prevSections.find? (fun ps =>
        decide (ps.stopId = (perTupleSection info result).stopId ∧
          ps.mode = (perTupleSection info result).mode)) = some prevSection)
    (hdep : prevSection.departures ≠ [])
    (herr : prevSection.error = none)
    (hload : prevSection.isLoading = false)
    (hfresh : result.isFailure = true ∨ (perTupleSection info result).departures = []) :
    mergeSection prevSections (perTupleSection info result) =
      { prevSection with
          isLoading := false
          stopName := strOr (perTupleSection info result).stopName prevSection.stopName } ∧
    (mergeSection prevSections (perTupleSection info result)).departures =
      prevSection.departures ∧
    ((perTupleSection info result).stopName = "" →
      (mergeSection prevSections (perTupleSection info result)).stopName =
        prevSection.stopName) ∧
    ((perTupleSection info result).stopName ≠ "" →
      (mergeSection prevSections (perTupleSection info result)).stopName =
        (perTupleSection info result).stopName) := by
  have hempty : (perTupleSection info result).departures = [] := by
    rcases hfresh with hfail | hempty
    · cases result with
      | ok stopName departures => simp [FetchResult.isFailure] at hfail
      | httpError => rfl
      | networkError => rfl
    · exact hempty
  have hmerge : mergeSection prevSections (perTupleSection info result) =
      { prevSection with
          stopName := strOr (perTupleSection info result).stopName prevSection.stopName } := by
    unfold mergeSection
    rw [if_neg (by simp [hempty]), hfind]
    simp only
    rw [if_pos ⟨by simpa using List.length_pos.mpr hdep, by simp [herr, strTruthy]⟩]
  have hload' : ({ prevSection with
      stopName := strOr (perTupleSection info result).stopName prevSection.stopName } :
        ModeSection) =
      { prevSection with
          isLoading := false
          stopName := strOr (perTupleSection info result).stopName prevSection.stopName } := by
    obtain ⟨m, sid, sn, deps, il, er, gbd⟩ := prevSection
    simp only at hload
    simp [hload]
  refine ⟨hmerge.trans hload', ?_, ?_, ?_⟩
  · rw [hmerge]
  · intro hname
    rw [hmerge]
    simp [strOr, hname]
  · intro hname
    rw [hmerge]
    simp [strOr, hname]

/-- Witness for C1: a concrete committed tram section survives a network
failure for the same tuple, keeping its departures and refreshing the stop
name from the failure section's configured name. -/
theorem merge_stale_preservation_witness :
    mergeSection [prevSectionSample] (perTupleSection tupleSample .networkError) =
      { prevSectionSample with
          isLoading := false
          stopName := strOr (perTupleSection tupleSample .networkError).stopName
            prevSectionSample.stopName } :=
  (merge_stale_preservation [prevSectionSample] tupleSample .networkError
    prevSectionSample (by decide) (by decide) (by decide) (by decide)
    (Or.inl (by decide))).1

/-- C2 Merge freshness: a fresh per-tuple result with at least one departure
and no error becomes the merged section exactly; nothing of the previous
section is kept or concatenated. -/
theorem merge_freshness (prevSections : List ModeSection) (fresh : ModeSection)
    (hdep : fresh.departures ≠ []) (herr : fresh.error = none) :
    mergeSection prevSections fresh = fresh :=
  mergeSection_of_usable_fresh prevSections fresh hdep herr

/-- Witness for C2 at a concrete committed state and fresh section. -/
theorem merge_freshness_witness :
    mergeSection [prevSectionSample] freshSectionSample = freshSectionSample :=
  merge_freshness [prevSectionSample] freshSectionSample (by decide) (by decide)

/-- C6 Fetch request sizing: with display count at least 1, an unfiltered
tuple's limit is at least three times the display count, a filtered tuple
uses a strictly smaller limit than the unfiltered one, and either way the
limit is at least twice the display count. -/
theorem fetch_limit_policy (departuresPerMode : Nat) (h : 1 ≤ departuresPerMode)
    (directionIds : Option (List String)) :
    (hasDirectionFilter directionIds = false →
      3 * departuresPerMode ≤
        fetchLimit departuresPerMode (!hasDirectionFilter directionIds)) ∧
    (hasDirectionFilter directionIds = true →
      fetchLimit departuresPerMode (!hasDirectionFilter directionIds) <
        fetchLimit departuresPerMode true) ∧
    2 * departuresPerMode ≤
      fetchLimit departuresPerMode (!hasDirectionFilter directionIds) := by
  cases hf : hasDirectionFilter directionIds <;>
    simp [fetchLimit, bufferMultiplier] <;> omega

/-- Witness for C6 at display count 3, once filtered and once unfiltered. -/
theorem fetch_limit_policy_witness :
    3 * 3 ≤ fetchLimit 3 (!hasDirectionFilter (none : Option (List String))) ∧
    fetchLimit 3 (!hasDirectionFilter (some ["d1"])) < fetchLimit 3 true :=
  ⟨(fetch_limit_policy 3 (by decide) none).1 (by decide),
   (fetch_limit_policy 3 (by decide) (some ["d1"])).2.1 (by decide)⟩

/-- Helper: the classification is `gone` exactly when the instant lies more
than 30 seconds before the current time (the rounded minute difference is
negative). -/
theorem classifyInstant_eq_gone_iff (targetTime nowTime : Int) :
    classifyInstant targetTime nowTime = .gone ↔ targetTime < nowTime - 30000 := by
  simp only [classifyInstant, roundMinutes,
    Int.fdiv_eq_ediv _ (by norm_num : (0:Int) ≤ 60000)]
  split_ifs with h1 h2 <;> simp <;> omega

/-- Helper: the classification is `departingNow` exactly when the instant
lies within half a minute of the current time (rounded minute difference
zero). -/
theorem classifyInstant_eq_departingNow_iff (targetTime nowTime : Int) :
    classifyInstant targetTime nowTime = .departingNow ↔
      nowTime - 30000 ≤ targetTime ∧ targetTime < nowTime + 30000 := by
  simp only [classifyInstant, roundMinutes,
    Int.fdiv_eq_ediv _ (by norm_num : (0:Int) ≤ 60000)]
  split_ifs with h1 h2 <;> simp <;> omega

/-- Counterexample to C3 as stated: `pastDeparture`'s effective time is
strictly in the past at time 10000 (10 seconds after it), yet the
classification is not `gone` (the rounded minute difference is 0, so it is
`departing-now`). -/
theorem classification_strict_past_counterexample :
    effectiveTime pastDeparture < 10000 ∧
      classify pastDeparture 10000 = .departingNow ∧
      classify pastDeparture 10000 ≠ .gone := by
  decide

/-- C3 amended: classification uses the effective time (`estimatedTime` if
present, else `scheduledTime`); it returns `gone` exactly when the effective
time is more than 30 seconds before now (negative rounded minute
difference), and `departing-now` exactly when the effective time is within
half a minute of now, in `[now - 30 s, now + 30 s)`. -/
theorem classification_window (d : Departure) (nowTime : Int) :
    (d.estimatedTime = none → effectiveTime d = d.scheduledTime) ∧
    (∀ est, d.estimatedTime = some est → effectiveTime d = est) ∧
    (classify d nowTime = .gone ↔ effectiveTime d < nowTime - 30000) ∧
    (classify d nowTime = .departingNow ↔
      nowTime - 30000 ≤ effectiveTime d ∧ effectiveTime d < nowTime + 30000) := by
  refine ⟨?_, ?_, ?_, ?_⟩
  · intro h; simp [effectiveTime, h]
  · intro est h; simp [effectiveTime, h]
  · exact classifyInstant_eq_gone_iff _ _
  · exact classifyInstant_eq_departingNow_iff _ _

/-- Witness for C3 amended at `pastDeparture` and time 50000: the effective
time 0 is more than 30 seconds past, so the classification is `gone`. -/
theorem classification_window_witness :
    classify pastDeparture 50000 = .gone ∧
      effectiveTime pastDeparture = pastDeparture.scheduledTime :=
  ⟨((classification_window pastDeparture 50000).2.2.1).mpr (by decide),
   (classification_window pastDeparture 50000).1 (by decide)⟩

/-- C4 Classification monotonicity: once a fixed departure is classified
`gone`, it stays `gone` at every later time. -/
theorem classification_monotone (d : Departure) (t1 t2 : Int) (h12 : t1 < t2)
    (hgone : classify d t1 = .gone) : classify d t2 = .gone := by
  rw [classify, classifyInstant_eq_gone_iff] at hgone ⊢
  omega

/-- Witness for C4: `pastDeparture` is `gone` at time 40000 and still `gone`
at time 100000. -/
theorem classification_monotone_witness :
    classify pastDeparture 100000 = .gone :=
  classification_monotone pastDeparture 40000 100000 (by decide) (by decide)

/-- Helper: the embedded `Math.round((estimated - scheduled) / 1000 / 60)`
agrees with mathematical rounding of the exact minute quotient (halves toward
positive infinity, as in JavaScript). -/
theorem roundMinutes_eq_round (diffMs : Int) :
    roundMinutes diffMs = round ((diffMs : ℚ) / 60000) := by
  rw [round_eq]
  have hq : ((diffMs : ℚ) / 60000 + 1 / 2) =
      ((diffMs + 30000 : ℤ) : ℚ) / ((60000 : ℕ) : ℚ) := by
    push_cast
    ring
  rw [hq, Rat.floor_intCast_div_natCast, roundMinutes,
    Int.fdiv_eq_ediv _ (by norm_num : (0:Int) ≤ 60000)]
  norm_num

/-- C5 Delay computation and dead-band: with an estimate present the
displayed delay is the rounded minute difference between estimate and
schedule; delays in `[-2, 2]` render as the `live` indicator, delays above 2
as `+N`, delays below -2 as the negative number; with no estimate the delay
is 0 and no real-time indicator is rendered. -/
theorem delay_deadband (scheduledTime : Int) (estimatedTime : Option Int)
    (nowTime : Int) :
    (∀ est, estimatedTime = some est →
      (formatDepartureTime scheduledTime estimatedTime nowTime).delayMinutes =
        round (((est - scheduledTime : ℤ) : ℚ) / 60000) ∧
      (-2 ≤ (formatDepartureTime scheduledTime estimatedTime nowTime).delayMinutes →
        (formatDepartureTime scheduledTime estimatedTime nowTime).delayMinutes ≤ 2 →
        delayIndicator (formatDepartureTime scheduledTime estimatedTime nowTime) =
          some "live") ∧
      (2 < (formatDepartureTime scheduledTime estimatedTime nowTime).delayMinutes →
        delayIndicator (formatDepartureTime scheduledTime estimatedTime nowTime) =
          some ("+" ++ toString
            (formatDepartureTime scheduledTime estimatedTime nowTime).delayMinutes)) ∧
      ((formatDepartureTime scheduledTime estimatedTime nowTime).delayMinutes < -2 →
        delayIndicator (formatDepartureTime scheduledTime estimatedTime nowTime) =
          some (toString
            (formatDepartureTime scheduledTime estimatedTime nowTime).delayMinutes))) ∧
    (estimatedTime = none →
      (formatDepartureTime scheduledTime estimatedTime nowTime).delayMinutes = 0 ∧
      delayIndicator (formatDepartureTime scheduledTime estimatedTime nowTime) =
        none) := by
  constructor
  · intro est hest
    subst hest
    refine ⟨?_, ?_, ?_, ?_⟩
    · simp [formatDepartureTime, roundMinutes_eq_round]
    · intro hlo hhi
      simp only [formatDepartureTime] at hlo hhi ⊢
      simp only [delayIndicator]
      rw [if_pos (by simp), if_neg (by omega), if_neg (by omega)]
    · intro hhi
      simp only [formatDepartureTime] at hhi ⊢
      simp only [delayIndicator]
      rw [if_pos (by simp), if_neg (by omega), if_pos (by omega)]
    · intro hlo
      simp only [formatDepartureTime] at hlo ⊢
      simp only [delayIndicator]
      rw [if_pos (by simp), if_pos (by omega)]
  · intro hnone
    subst hnone
    simp [formatDepartureTime, delayIndicator]

/-- Witness for C5: a departure running 5 minutes late shows `+5`; one
running 1 minute late shows `live`; one with no estimate has delay 0 and no
indicator. -/
theorem delay_deadband_witness :
    delayIndicator (formatDepartureTime 0 (some 300000) 0) = some ("+" ++ toString
      (formatDepartureTime 0 (some 300000) 0).delayMinutes) ∧
    delayIndicator (formatDepartureTime 0 (some 60000) 0) = some "live" ∧
    (formatDepartureTime 0 none 0).delayMinutes = 0 ∧
    delayIndicator (formatDepartureTime 0 none 0) = none :=
  ⟨((delay_deadband 0 (some 300000) 0).1 300000 rfl).2.2.1 (by decide),
   ((delay_deadband 0 (some 60000) 0).1 60000 rfl).2.1 (by decide) (by decide),
   ((delay_deadband 0 none 0).2 rfl).1,
   ((delay_deadband 0 none 0).2 rfl).2⟩

/-- Helper: a step taken while the page is hidden, on an event that keeps it
hidden, leaves it hidden and triggers no fetch. -/
theorem schedulerStep_hidden (s : SchedulerState) (e : SchedulerEvent)
    (hs : s.isVisible = false) (he : e.keepsHidden = true) :
    (schedulerStep s e).1.isVisible = false ∧ (schedulerStep s e).2 = 0 := by
  cases e with
  | timerFire =>
    by_cases h : s.timerArmed <;> simp [schedulerStep, hs, h]
  | visibilityChange visible dataStale =>
    cases visible with
    | false => simp [schedulerStep]
    | true => simp [SchedulerEvent.keepsHidden] at he

/-- C7 Scheduler battery discipline: starting hidden, any sequence of events
that keeps the page hidden (queued timer fires, further hidden
notifications) triggers zero fetch cycles, however long it is; and the
visible-to-hidden transition always clears the pending timer and fetches
nothing. -/
theorem scheduler_battery_discipline (s : SchedulerState)
    (events : List SchedulerEvent) (hs : s.isVisible = false)
    (hev : ∀ e ∈ events, e.keepsHidden = true) :
    (schedulerRun s events).2 = 0 ∧
    (∀ (s2 : SchedulerState) (dataStale : Bool),
      (schedulerStep s2 (.visibilityChange false dataStale)).1.timerArmed = false ∧
      (schedulerStep s2 (.visibilityChange false dataStale)).2 = 0) := by
  constructor
  · induction events generalizing s with
    | nil => rfl
    | cons e es ih =>
      have h1 := schedulerStep_hidden s e hs (hev e (by simp))
      have h2 := ih (schedulerStep s e).1 h1.1 (fun e' he' => hev e' (by simp [he']))
      simp [schedulerRun, h1.2, h2]
  · intro s2 dataStale
    simp [schedulerStep]

/-- Witness for C7: a hidden scheduler with an armed timer sees a queued
timer fire, a further hidden notification and another timer fire, and
performs zero fetches. -/
theorem scheduler_battery_discipline_witness :
    (schedulerRun { isVisible := false, timerArmed := true }
      [.timerFire, .visibilityChange false true, .timerFire]).2 = 0 :=
  (scheduler_battery_discipline { isVisible := false, timerArmed := true }
    [.timerFire, .visibilityChange false true, .timerFire]
    (by decide) (by decide)).1

/-- C8 Per-tuple error containment and fan-out independence: every tuple of a
batch settles to its own section (the batch length never shrinks), the merged
section at each position is a function of that tuple's own outcome and the
committed state only, and in the concrete two-tuple scenario with A
succeeding and B failing, A's merged section is the fresh success while B's
is whatever the per-tuple stale-preservation rule yields — independent of
arrival order, since the merged list is a pure function of the outcomes. -/
theorem fanout_independence (prevSections : List ModeSection)
    (pairs : List (EnabledStopInfo × FetchResult)) :
    (mergeSections prevSections (fetchBatch pairs)).length = pairs.length ∧
    (∀ i : Nat, (mergeSections prevSections (fetchBatch pairs))[i]? =
      (pairs[i]?).map (fun pair =>
        mergeSection prevSections (perTupleSection pair.1 pair.2))) ∧
    (∀ (a b : EnabledStopInfo) (resA resB : FetchResult),
      (perTupleSection a resA).departures ≠ [] →
      (perTupleSection a resA).error = none →
      resB.isFailure = true →
      mergeSections prevSections (fetchBatch [(a, resA), (b, resB)]) =
        [perTupleSection a resA,
         mergeSection prevSections (perTupleSection b resB)]) := by
  refine ⟨?_, ?_, ?_⟩
  · simp [mergeSections, fetchBatch]
  · intro i
    simp only [mergeSections, fetchBatch, List.map_map, List.getElem?_map]
    rfl
  · intro a b resA resB hdep herr hfail
    simp [mergeSections, fetchBatch,
      mergeSection_of_usable_fresh prevSections (perTupleSection a resA) hdep herr]

/-- Witness for C8: one succeeding tuple next to one failing tuple, against a
committed section for the failing tuple's stop. -/
theorem fanout_independence_witness :
    mergeSections [prevSectionSample]
      (fetchBatch
        [(successTuple, .ok (some "Fresh") [depFixture "d9" dirFixtureX 600000]),
         (tupleSample, .networkError)]) =
      [perTupleSection successTuple
        (.ok (some "Fresh") [depFixture "d9" dirFixtureX 600000]),
       mergeSection [prevSectionSample]
        (perTupleSection tupleSample .networkError)] :=
  (fanout_independence [prevSectionSample]
    [(successTuple, .ok (some "Fresh") [depFixture "d9" dirFixtureX 600000]),
     (tupleSample, .networkError)]).2.2 successTuple tupleSample
    (.ok (some "Fresh") [depFixture "d9" dirFixtureX 600000]) .networkError
    (by decide) (by decide) (by decide)

/-- Helper: reading back the stop list just written for a (non-default) mode
returns exactly that list. -/
theorem getStopsForMode_setStopsForMode (settings : UserSettings)
    (mode : TransportMode) (configs : List StopConfig) (hm : mode ≠ .metro) :
    getStopsForMode (setStopsForMode settings mode configs) mode = configs := by
  cases mode <;>
    simp_all [getStopsForMode, setStopsForMode, getActiveProviderSettings]

/-- C10 Adding a configured stop is idempotent: when the config's stop id
already occurs among the active provider's stops for that mode,
`addStopForMode` returns the settings unchanged, and in every case adding the
same stop twice yields exactly the settings obtained by adding it once. -/
theorem add_stop_idempotent (settings : UserSettings) (mode : TransportMode)
    (config : StopConfig) :
    ((getStopsForMode settings mode).any
        (fun s => s.stop.id = config.stop.id) = true →
      addStopForMode settings mode config = settings) ∧
    addStopForMode (addStopForMode settings mode config) mode config =
      addStopForMode settings mode config := by
  have hpresent : ∀ st : UserSettings,
      (getStopsForMode st mode).any (fun s => s.stop.id = config.stop.id) = true →
      addStopForMode st mode config = st := by
    intro st h
    unfold addStopForMode
    simp [h]
  refine ⟨hpresent settings, ?_⟩
  by_cases h :
      (getStopsForMode settings mode).any (fun s => s.stop.id = config.stop.id) = true
  · rw [hpresent settings h, hpresent settings h]
  · have hadd : addStopForMode settings mode config =
        setStopsForMode settings mode (getStopsForMode settings mode ++ [config]) := by
      unfold addStopForMode
      simp [h]
    by_cases hm : mode = .metro
    · subst hm
      have hset : setStopsForMode settings .metro
          (getStopsForMode settings .metro ++ [config]) = settings := rfl
      rw [hadd, hset, hadd, hset]
    · rw [hadd]
      apply hpresent
      rw [getStopsForMode_setStopsForMode settings mode
        (getStopsForMode settings mode ++ [config]) hm]
      simp

/-- Witness for C10: `settingsSample` already contains `stopConfigSample` for
trams, so adding it again returns the settings unchanged. -/
theorem add_stop_idempotent_witness :
    addStopForMode settingsSample .tram stopConfigSample = settingsSample :=
  (add_stop_idempotent settingsSample .tram stopConfigSample).1 (by decide)

/-- Helper: the bucket order is total. -/
theorem groupOrder_total (a b : DirectionGroup) : GroupOrder a b ∨ GroupOrder b a := by
  unfold GroupOrder groupLE
  cases ha : groupKey a <;> cases hb : groupKey b <;> simp [ha, hb]
  omega

/-- Helper: the bucket order is transitive. -/
theorem groupOrder_trans (a b c : DirectionGroup) (h1 : GroupOrder a b)
    (h2 : GroupOrder b c) : GroupOrder a c := by
  unfold GroupOrder groupLE at h1 h2 ⊢
  cases ha : groupKey a <;> cases hb : groupKey b <;> cases hc : groupKey c <;>
    simp_all
  omega

/-- Helper: inserting one departure preserves the bucket invariant — every
bucket holds at most `maxPerDirection` departures, all with the bucket's
direction id. -/
theorem insertIntoGroups_invariant (maxPerDirection : Nat)
    (groups : List DirectionGroup) (dep : Departure)
    (h : ∀ g ∈ groups, g.departures.length ≤ maxPerDirection ∧
      ∀ d ∈ g.departures, strOr d.direction.id "unknown" = g.directionId) :
    ∀ g ∈ insertIntoGroups maxPerDirection groups dep,
      g.departures.length ≤ maxPerDirection ∧
      ∀ d ∈ g.departures, strOr d.direction.id "unknown" = g.directionId := by
  intro g hg
  simp only [insertIntoGroups] at hg
  split at hg
  · obtain ⟨g0, hg0, rfl⟩ := List.mem_map.mp hg
    by_cases hcond : g0.directionId = strOr dep.direction.id "unknown" ∧
        g0.departures.length < maxPerDirection
    · rw [if_pos hcond]
      obtain ⟨hid, hlen⟩ := hcond
      constructor
      · simpa using hlen
      · intro d hd
        rcases List.mem_append.mp hd with hd | hd
        · exact (h g0 hg0).2 d hd
        · simp only [List.mem_singleton] at hd
          subst hd
          exact hid.symm
    · rw [if_neg hcond]
      exact h g0 hg0
  · rcases List.mem_append.mp hg with hg | hg
    · exact h g hg
    · simp only [List.mem_singleton] at hg
      subst hg
      by_cases hmax : 0 < maxPerDirection
      · rw [if_pos hmax]
        exact ⟨by simpa using hmax, by simp⟩
      · rw [if_neg hmax]
        exact ⟨by simp, by simp⟩

/-- Helper: the bucket invariant holds for the whole fold over a departure
list. -/
theorem foldl_insertIntoGroups_invariant (maxPerDirection : Nat)
    (deps : List Departure) (groups : List DirectionGroup)
    (h : ∀ g ∈ groups, g.departures.length ≤ maxPerDirection ∧
      ∀ d ∈ g.departures, strOr d.direction.id "unknown" = g.directionId) :
    ∀ g ∈ deps.foldl (insertIntoGroups maxPerDirection) groups,
      g.departures.length ≤ maxPerDirection ∧
      ∀ d ∈ g.departures, strOr d.direction.id "unknown" = g.directionId := by
  induction deps generalizing groups with
  | nil => exact h
  | cons d ds ih =>
    exact ih (insertIntoGroups maxPerDirection groups d)
      (insertIntoGroups_invariant maxPerDirection groups d h)

/-- Counterexample to C9 as stated.  First conjunct: with configured display
count 1 and one fading departure, `ModeSectionComponent` passes cap
`1 + 1 = 2` to the bucketing, so a bucket ends up with 2 departures —
more than the configured per-direction display count.  Second conjunct: the
buckets are sorted by their *first* member's effective time, so when a
direction's earliest departure appears late in the input list the buckets
are not ordered by their earliest member's effective time ascending. -/
theorem direction_grouping_counterexample :
    (¬ ∀ g ∈ sectionDirectionGroups groupingCapSection 0 ["f1"] 1,
        g.departures.length ≤ 1) ∧
    ¬ bucketsOrderedByEarliest (groupDeparturesByDirection orderCounterDeps 5) := by
  constructor
  · decide
  · unfold bucketsOrderedByEarliest
    decide

/-- C9 amended: for a section with `groupByDirection` set, the rendered
buckets partition the visible departures by `direction.id` (with the
`unknown` fallback), each bucket holds at most the configured display count
plus the number of currently fading departures, and the buckets are ordered
ascending by their first member's effective time. -/
theorem direction_grouping_amended (s : ModeSection) (nowTime : Int)
    (fadingOutIds : List String) (departuresPerMode : Nat)
    (hgroup : s.groupByDirection = some true) :
    (∀ g ∈ sectionDirectionGroups s nowTime fadingOutIds departuresPerMode,
      ∀ d ∈ g.departures, strOr d.direction.id "unknown" = g.directionId) ∧
    (∀ g ∈ sectionDirectionGroups s nowTime fadingOutIds departuresPerMode,
      g.departures.length ≤
        departuresPerMode + (sectionFading s nowTime fadingOutIds).length) ∧
    List.Sorted GroupOrder
      (sectionDirectionGroups s nowTime fadingOutIds departuresPerMode) := by
  have hinv := foldl_insertIntoGroups_invariant
    (departuresPerMode + (sectionFading s nowTime fadingOutIds).length)
    (displayDepartures s nowTime fadingOutIds) [] (by simp)
  refine ⟨?_, ?_, ?_⟩
  · intro g hg
    simp only [sectionDirectionGroups, groupDeparturesByDirection] at hg
    exact (hinv g ((List.mem_insertionSort GroupOrder).1 hg)).2
  · intro g hg
    simp only [sectionDirectionGroups, groupDeparturesByDirection] at hg
    exact (hinv g ((List.mem_insertionSort GroupOrder).1 hg)).1
  · haveI : IsTotal DirectionGroup GroupOrder := ⟨groupOrder_total⟩
    haveI : IsTrans DirectionGroup GroupOrder := ⟨fun a b c => groupOrder_trans a b c⟩
    exact List.sorted_insertionSort GroupOrder _

/-- Witness for C9 amended at the concrete grouping fixture: the single `x`
bucket holds 2 departures, at most the display count 1 plus the fading
count 1, and the bucket list is sorted. -/
theorem direction_grouping_amended_witness :
    (∀ g ∈ sectionDirectionGroups groupingCapSection 0 ["f1"] 1,
      g.departures.length ≤ 1 + (sectionFading groupingCapSection 0 ["f1"]).length) ∧
    List.Sorted GroupOrder (sectionDirectionGroups groupingCapSection 0 ["f1"] 1) :=
  ⟨(direction_grouping_amended groupingCapSection 0 ["f1"] 1 (by decide)).2.1,
   (direction_grouping_amended groupingCapSection 0 ["f1"] 1 (by decide)).2.2⟩

end NextDeparture
